import Mathlib

/-!
Verification development for the query-diagnostics bundle lifecycle manager
implemented in src/backend/utils/misc/yb_query_diagnostics.c.  The C code is
shallowly embedded: shared-memory structures become Lean structures, the
stateful operations become pure state-passing functions, the filesystem is an
oracle recording which writes happen, and machine tick counts (TimestampTz,
i.e. microseconds) are modelled as Int.
-/

set_option maxHeartbeats 1000000

/-- Maximum length (bytes, including the NUL terminator) of the error
description stored in a completed-bundle slot (DESCRIPTION_LEN). -/
def DESCRIPTION_LEN : Nat := 128

/-- Microseconds per second: TimestampTz counts microseconds, so
diagnostics_interval_sec is multiplied by this in HasBundleExpired. -/
def USECS_PER_SEC : Int := 1000000

/-- Status code 0: bundle completed successfully. -/
def DIAGNOSTICS_SUCCESS : Nat := 0

/-- Status code 1: bundle still in progress. -/
def DIAGNOSTICS_IN_PROGRESS : Nat := 1

/-- Status code 2: bundle errored out. -/
def DIAGNOSTICS_ERROR : Nat := 2

/-- Maximum length of a file path (MAXPGPATH in PostgreSQL). -/
def MAXPGPATH : Nat := 1024

/-- Status strings used by the yb_query_diagnostics_status view (status_msg). -/
def status_msg : List String := ["Success", "In Progress", "Error"]

/-- Text form of a numeric bundle status, as indexed into status_msg. -/
def statusText (status : Nat) : String := status_msg.getD status ""

/-- The seven configuration parameters of a diagnostics bundle
(struct YbQueryDiagnosticsParams, declared in the companion header; the fields
are exactly the ones read and validated by FetchParams and used throughout the
C file). -/
structure YbQueryDiagnosticsParams where
  query_id : Int
  diagnostics_interval_sec : Int
  explain_sample_rate : Int
  explain_analyze : Bool
  explain_dist : Bool
  explain_debug : Bool
  bind_var_query_min_duration_ms : Int
  deriving DecidableEq

/-- Bundle metadata: parameters, creation timestamp (TimestampTz microseconds)
and the storage path computed once by ConstructDiagnosticsPath
(struct YbQueryDiagnosticsMetadata). -/
structure YbQueryDiagnosticsMetadata where
  params : YbQueryDiagnosticsParams
  start_time : Int
  path : String
  deriving DecidableEq

/-- One active session in the bundles_in_progress hash table: metadata plus the
accumulation buffer bind_vars (a NUL-terminated char array in C, modelled as
the string of bytes before the terminator; the per-entry spinlock has no
observable content in this sequential embedding). -/
structure YbQueryDiagnosticsEntry where
  metadata : YbQueryDiagnosticsMetadata
  bind_vars : String
  deriving DecidableEq

/-- The bundles_in_progress shared hash table, as an association list from
query_id to entry. -/
abbrev BundlesInProgress := List (Int × YbQueryDiagnosticsEntry)

/-- Errors raised with ereport by the begin path of the C code. -/
inductive DiagError where
  | validationError (msg : String)
  | duplicateSessionError
  | pathTooLong
  | notEnabled
  deriving DecidableEq

/-- FetchParams: reads the seven arguments of the yb_query_diagnostics SQL
function and validates them in order, raising the C file's exact error
messages (modelled as Except). -/
def FetchParams (query_id diagnostics_interval_sec explain_sample_rate : Int)
    (explain_analyze explain_dist explain_debug : Bool)
    (bind_var_query_min_duration_ms : Int) :
    Except DiagError YbQueryDiagnosticsParams :=
  if query_id = 0 then
    .error (.validationError "there cannot be a query with query_id 0")
  else if diagnostics_interval_sec ≤ 0 then
    .error (.validationError "diagnostics_interval_sec should be greater than 0")
  else if explain_sample_rate < 0 ∨ 100 < explain_sample_rate then
    .error (.validationError "explain_sample_rate should be between 0 and 100")
  else if bind_var_query_min_duration_ms < 0 then
    .error (.validationError "bind_var_query_min_duration_ms cannot be less than 0")
  else
    .ok ⟨query_id, diagnostics_interval_sec, explain_sample_rate,
         explain_analyze, explain_dist, explain_debug,
         bind_var_query_min_duration_ms⟩

/-- Reinterpretation of an unsigned 32-bit value as a signed int, as done when
the uint32 result of hash_any is printed with the %d conversion. -/
def toSigned32 (n : Nat) : Int :=
  if n % 2 ^ 32 < 2 ^ 31 then (n % 2 ^ 32 : Int) else (n % 2 ^ 32 : Int) - 2 ^ 32

/-- ConstructDiagnosticsPath: the path is
DataDir/query-diagnostics/query_id/rand_num/ where rand_num is hash_any applied
to the bytes of start_time (hashAny is the deterministic hash function,
abstracted); errors out when the rendered path reaches MAXPGPATH. -/
def ConstructDiagnosticsPath (hashAny : Int → Nat) (dataDir : String)
    (params : YbQueryDiagnosticsParams) (start_time : Int) :
    Except DiagError YbQueryDiagnosticsMetadata :=
  let rand_num := toSigned32 (hashAny start_time)
  let path := dataDir ++ "/" ++ "query-diagnostics" ++ "/" ++
    toString params.query_id ++ "/" ++ toString rand_num ++ "/"
  if MAXPGPATH ≤ path.length then .error .pathTooLong
  else .ok ⟨params, start_time, path⟩

/-- InsertNewBundleInfo: under the table's exclusive lock, hash_search with
HASH_ENTER inserts a fresh entry (bind_vars zeroed) only when the key is
absent; when the key is already present the existing entry is left untouched
and a duplicate-object error is raised after the lock is released. -/
def InsertNewBundleInfo (tbl : BundlesInProgress)
    (metadata : YbQueryDiagnosticsMetadata) :
    BundlesInProgress × Option DiagError :=
  let key := metadata.params.query_id
  match tbl.lookup key with
  | some _ => (tbl, some .duplicateSessionError)
  | none => (tbl ++ [(key, ⟨metadata, ""⟩)], none)

/-- yb_query_diagnostics: the SQL-callable begin operation; checks the enable
gflag, stamps start_time with the current timestamp, validates parameters,
computes the storage path, inserts the new bundle, and returns the path. -/
def yb_query_diagnostics (enabled : Bool) (hashAny : Int → Nat)
    (dataDir : String) (now : Int)
    (query_id diagnostics_interval_sec explain_sample_rate : Int)
    (explain_analyze explain_dist explain_debug : Bool)
    (bind_var_query_min_duration_ms : Int)
    (tbl : BundlesInProgress) : BundlesInProgress × Except DiagError String :=
  if enabled = false then (tbl, .error .notEnabled)
  else
    match FetchParams query_id diagnostics_interval_sec explain_sample_rate
        explain_analyze explain_dist explain_debug
        bind_var_query_min_duration_ms with
    | .error e => (tbl, .error e)
    | .ok params =>
      match ConstructDiagnosticsPath hashAny dataDir params now with
      | .error e => (tbl, .error e)
      | .ok metadata =>
        match InsertNewBundleInfo tbl metadata with
        | (tbl2, some e) => (tbl2, .error e)
        | (tbl2, none) => (tbl2, .ok metadata.path)

/-- One bound parameter as seen by FormatParams: either the null flag or the
textual rendering produced by the type's output function
(OidOutputFunctionCall, abstracted as an arbitrary string). -/
inductive BindParam where
  | nullParam
  | typed (rendered : String)
  deriving DecidableEq

/-- FormatParams: iterates over the parameters; a null parameter appends the
bare word NULL, a non-null parameter appends its rendering followed by a
comma. -/
def FormatParams (params : List BindParam) : String :=
  params.foldl
    (fun buf p =>
      match p with
      | .nullParam => buf ++ "NULL"
      | .typed val => buf ++ val ++ ",")
    ""

/-- Elapsed time in milliseconds as a decimal number: whole part plus six
fractional decimal digits, mirroring what the %lf printf conversion prints
for the double totaltime_ms. -/
structure TimeMs where
  whole : Nat
  frac6 : Nat
  deriving DecidableEq

/-- Left-pads a fractional part to six digits, as %lf always prints six. -/
def pad6 (n : Nat) : String :=
  let s := toString (n % 1000000)
  String.mk (List.replicate (6 - s.length) '0') ++ s

/-- Rendering of the elapsed time with the %lf conversion. -/
def formatLf (t : TimeMs) : String := toString t.whole ++ "." ++ pad6 t.frac6

/-- Value of the time in millionths of a millisecond, used for the exact
comparison against bind_var_query_min_duration_ms. -/
def TimeMs.scaled (t : TimeMs) : Int := (t.whole : Int) * 1000000 + (t.frac6 : Int)

/-- The full text line built for one sample: FormatParams output, then the
elapsed time appended with "%lf\n". -/
def sampleLine (t : TimeMs) (params : List BindParam) : String :=
  FormatParams params ++ formatLf t ++ "\n"

/-- AccumulateBindVariables: if the buffer already holds maxLen - 1 bytes it is
full and the sample is dropped; otherwise the line is built and appended only
when it fits strictly below maxLen bytes (maxLen is YB_QD_MAX_BIND_VARS_LEN,
whose numeric value lives in the companion header, so it stays a parameter). -/
def AccumulateBindVariables (maxLen : Nat) (bind_vars : String) (totaltime : TimeMs)
    (params : List BindParam) : String :=
  if bind_vars.length = maxLen - 1 then bind_vars
  else
    let buf := FormatParams params ++ formatLf totaltime ++ "\n"
    if bind_vars.length + buf.length < maxLen then bind_vars ++ buf else bind_vars

/-- YbQueryDiagnostics_ExecutorEnd (data part): looks up the query id under the
shared table lock; when found, when bound parameters exist and the elapsed
time reaches bind_var_query_min_duration_ms, the sample is accumulated into
the entry's buffer. -/
def YbQueryDiagnostics_ExecutorEnd (maxLen : Nat) (tbl : BundlesInProgress)
    (query_id : Int) (totaltime : TimeMs) (params : Option (List BindParam)) :
    BundlesInProgress :=
  match tbl.lookup query_id with
  | none => tbl
  | some entry =>
    match params with
    | none => tbl
    | some ps =>
      if entry.metadata.params.bind_var_query_min_duration_ms * 1000000 ≤ totaltime.scaled then
        tbl.map fun p =>
          if p.1 = query_id then
            (p.1, ⟨entry.metadata,
                   AccumulateBindVariables maxLen entry.bind_vars totaltime ps⟩)
          else p
      else tbl

/-- Filesystem oracle: which directory creations, file opens and file writes
succeed, keyed by path. -/
structure FsOracle where
  mkdirOk : String → Bool
  openOk : String → Bool
  writeOk : String → Bool

/-- Result of DumpToFile: the returned status code, the description left in the
caller's description buffer, and the successful verbatim file writes. -/
structure DumpResult where
  status : Nat
  description : String
  writes : List (String × String)
  deriving DecidableEq

/-- DumpToFile: empty payload short-circuits to Success with description
"No data captured" and touches no file; otherwise the file path/file_name is
opened (created and truncated) and the data written verbatim; open and write
failures each set a distinct description and the final status is Success
exactly when the description buffer stayed empty. -/
def DumpToFile (fs : FsOracle) (path file_name data : String) : DumpResult :=
  if data = "" then ⟨DIAGNOSTICS_SUCCESS, "No data captured", []⟩
  else
    let file_path := path ++ "/" ++ file_name
    if fs.openOk file_path = false then
      ⟨DIAGNOSTICS_ERROR, "out of file descriptors: %m; release and retry", []⟩
    else if fs.writeOk file_path = false then
      ⟨DIAGNOSTICS_ERROR, "Error writing to file; %m", []⟩
    else ⟨DIAGNOSTICS_SUCCESS, "", [(file_path, data)]⟩

/-- HasBundleExpired: the bundle has expired when current_time has reached
start_time plus diagnostics_interval_sec converted to microseconds. -/
def HasBundleExpired (entry : YbQueryDiagnosticsEntry) (current_time : Int) : Bool :=
  decide (entry.metadata.start_time +
    entry.metadata.params.diagnostics_interval_sec * USECS_PER_SEC ≤ current_time)

/-- The NUL byte that terminates C strings. -/
def nulChar : Char := Char.ofNat 0

/-- One slot of the completed-bundles circular buffer (struct BundleInfo); the
description is kept as the raw DESCRIPTION_LEN byte array because
InsertCompletedBundleInfo copies into it with memcpy. -/
structure BundleInfo where
  metadata : YbQueryDiagnosticsMetadata
  status : Nat
  description : List Char
  deriving DecidableEq

/-- A slot as left by the initial MemSet: everything zeroed, query_id 0 marking
the slot as never written. -/
def emptyBundleInfo : BundleInfo :=
  ⟨⟨⟨0, 0, 0, false, false, false, 0⟩, 0, ""⟩, 0,
   List.replicate DESCRIPTION_LEN nulChar⟩

/-- The completed-bundles circular buffer (struct YbQueryDiagnosticsBundles):
write cursor, capacity, and the slot array. -/
structure YbQueryDiagnosticsBundles where
  index : Nat
  max_entries : Nat
  bundles : List BundleInfo
  deriving DecidableEq

/-- The circular buffer as initialized in shared memory: cursor 0 and all
slots zeroed. -/
def emptyBundles (n : Nat) : YbQueryDiagnosticsBundles :=
  ⟨0, n, List.replicate n emptyBundleInfo⟩

/-- Effect of memcpy(dest, src, strlen(src)) on a char array: the bytes of src
overwrite the front of dest and, because strlen excludes the NUL terminator,
the tail of dest survives. -/
def memcpyDescription (dest : List Char) (src : String) : List Char :=
  src.data ++ dest.drop src.data.length

/-- InsertCompletedBundleInfo: under the circular-buffer lock, the slot at the
cursor receives the status, a memcpy of the metadata, and a memcpy of
strlen(description) bytes of the description; the cursor then advances,
wrapping to 0 at max_entries. -/
def InsertCompletedBundleInfo (b : YbQueryDiagnosticsBundles)
    (metadata : YbQueryDiagnosticsMetadata) (status : Nat) (description : String) :
    YbQueryDiagnosticsBundles :=
  let old := b.bundles.getD b.index emptyBundleInfo
  let sample : BundleInfo := ⟨metadata, status, memcpyDescription old.description description⟩
  let idx := b.index + 1
  ⟨if idx = b.max_entries then 0 else idx, b.max_entries, b.bundles.set b.index sample⟩

/-- Reading a char array back as a C string: the bytes before the first NUL. -/
def cString (a : List Char) : String := String.mk (a.takeWhile fun c => c ≠ nulChar)

/-- One row of the yb_query_diagnostics_status view; the jsonb of the four
explain settings is carried as the structured params record. -/
structure StatusRow where
  status : String
  description : String
  query_id : Int
  start_time : Int
  diagnostics_interval_sec : Int
  bind_var_query_min_duration_ms : Int
  explain_params : YbQueryDiagnosticsParams
  path : String
  deriving DecidableEq

/-- OutputBundle: builds the eight-column row for one bundle. -/
def OutputBundle (metadata : YbQueryDiagnosticsMetadata)
    (description status : String) : StatusRow :=
  ⟨status, description, metadata.params.query_id, metadata.start_time,
   metadata.params.diagnostics_interval_sec,
   metadata.params.bind_var_query_min_duration_ms, metadata.params,
   metadata.path⟩

/-- ProcessActiveBundles: one In Progress row with empty description per hash
table entry. -/
def ProcessActiveBundles (tbl : BundlesInProgress) : List StatusRow :=
  tbl.map fun p =>
    OutputBundle p.2.metadata "" (statusText DIAGNOSTICS_IN_PROGRESS)

/-- ProcessCompletedBundles: one row per circular-buffer slot whose query_id is
non-zero, in slot order; the stored description bytes are read back as a C
string. -/
def ProcessCompletedBundles (b : YbQueryDiagnosticsBundles) : List StatusRow :=
  (b.bundles.filter fun s => decide (s.metadata.params.query_id ≠ 0)).map fun s =>
    OutputBundle s.metadata (cString s.description) (statusText s.status)

/-- yb_get_query_diagnostics_status: active rows first, then completed rows. -/
def yb_get_query_diagnostics_status (tbl : BundlesInProgress)
    (b : YbQueryDiagnosticsBundles) : List StatusRow :=
  ProcessActiveBundles tbl ++ ProcessCompletedBundles b

/-- Outcome of finalizing one expired bundle: directory creation failure yields
the fixed Error description without calling DumpToFile; otherwise DumpToFile
decides status, description and writes. -/
def bundleOutcome (fs : FsOracle) (e : YbQueryDiagnosticsEntry) : DumpResult :=
  if fs.mkdirOk e.metadata.path = false then
    ⟨DIAGNOSTICS_ERROR, "Failed to create query diagnostics directory", []⟩
  else DumpToFile fs e.metadata.path "bind_variables.csv" e.bind_vars

/-- State threaded through one sweep of RemoveExpiredEntries: the hash table,
the circular buffer, the records handed to InsertCompletedBundleInfo in order,
and the file writes performed. -/
structure SweepState where
  table : BundlesInProgress
  bundles : YbQueryDiagnosticsBundles
  archived : List (YbQueryDiagnosticsMetadata × Nat × String)
  writes : List (String × String)

/-- Processing of one scanned entry by RemoveExpiredEntries: an expired entry
is snapshotted, persisted, filed into the circular buffer and removed from the
table by its query_id; a live entry is left untouched. -/
def sweepStep (fs : FsOracle) (current_time : Int) (st : SweepState)
    (p : Int × YbQueryDiagnosticsEntry) : SweepState :=
  if HasBundleExpired p.2 current_time then
    let metadata_copy := p.2.metadata
    let outcome := bundleOutcome fs p.2
    { table := st.table.filter fun q => decide (q.1 ≠ metadata_copy.params.query_id)
      bundles := InsertCompletedBundleInfo st.bundles metadata_copy outcome.status
        outcome.description
      archived := st.archived ++ [(metadata_copy, outcome.status, outcome.description)]
      writes := st.writes ++ outcome.writes }
  else st

/-- RemoveExpiredEntries: one background sweep, scanning every table entry and
finalizing exactly the expired ones. -/
def RemoveExpiredEntries (fs : FsOracle) (current_time : Int)
    (tbl : BundlesInProgress) (b : YbQueryDiagnosticsBundles) : SweepState :=
  tbl.foldl (sweepStep fs current_time) ⟨tbl, b, [], []⟩

/-- Lock-relevant events of YbQueryDiagnostics_ExecutorEnd, in program order. -/
inductive HookAction where
  | acquireTableShared
  | releaseTable
  | hashFind
  | acquireSpin
  | releaseSpin
  | formatAction
  | appendBuffer
  | callPrevHook
  deriving DecidableEq

/-- Event trace of AccumulateBindVariables: the is_full probe under the
spinlock; then, unless full, the line is formatted and appended under a second
spinlock section (appendBuffer only when the line fits). -/
def accumulateTrace (is_full fits : Bool) : List HookAction :=
  [.acquireSpin, .releaseSpin] ++
    (if is_full then []
     else [.formatAction, .acquireSpin] ++
       (if fits then [.appendBuffer] else []) ++ [.releaseSpin])

/-- Event trace of YbQueryDiagnostics_ExecutorEnd: the table lock is taken in
shared mode around the lookup and, when the entry is found, parameters are
present and the duration threshold is met, around the whole of
AccumulateBindVariables; the saved previous hook runs after the release. -/
def executorEndTrace (found has_params meets_threshold is_full fits : Bool) :
    List HookAction :=
  [.acquireTableShared, .hashFind] ++
    (if found && has_params && meets_threshold then accumulateTrace is_full fits
     else []) ++
    [.releaseTable, .callPrevHook]

/-- Lock-state transition of one event: the pair tracks whether the table lock
and the entry spinlock are held. -/
def lockStep (st : Bool × Bool) (a : HookAction) : Bool × Bool :=
  match a with
  | .acquireTableShared => (true, st.2)
  | .releaseTable => (false, st.2)
  | .acquireSpin => (st.1, true)
  | .releaseSpin => (st.1, false)
  | _ => st

/-- Locks held at the moment event i of the trace executes (state after the
first i events, starting from nothing held). -/
def locksHeldBefore (tr : List HookAction) (i : Nat) : Bool × Bool :=
  (tr.take i).foldl lockStep (false, false)

/-- One record handed to InsertCompletedBundleInfo: metadata, status code and
description string. -/
abbrev CompletedInput := YbQueryDiagnosticsMetadata × Nat × String

/-- Folding a list of completed records into the circular buffer. -/
def insertAllCompleted (b : YbQueryDiagnosticsBundles) (rs : List CompletedInput) :
    YbQueryDiagnosticsBundles :=
  rs.foldl (fun acc r => InsertCompletedBundleInfo acc r.1 r.2.1 r.2.2) b

/-- View of a buffer slot without its raw description bytes. -/
def bundleProj (s : BundleInfo) : YbQueryDiagnosticsMetadata × Nat :=
  (s.metadata, s.status)

/-- View of a completed record without its description string. -/
def inputProj (r : CompletedInput) : YbQueryDiagnosticsMetadata × Nat :=
  (r.1, r.2.1)

/-- Description-free core of a status row. -/
def rowCore (row : StatusRow) :
    String × Int × Int × Int × Int × YbQueryDiagnosticsParams × String :=
  (row.status, row.query_id, row.start_time, row.diagnostics_interval_sec,
   row.bind_var_query_min_duration_ms, row.explain_params, row.path)

/-- Row core produced for a stored (metadata, status) pair. -/
def projRow (pr : YbQueryDiagnosticsMetadata × Nat) :
    String × Int × Int × Int × Int × YbQueryDiagnosticsParams × String :=
  (statusText pr.2, pr.1.params.query_id, pr.1.start_time,
   pr.1.params.diagnostics_interval_sec,
   pr.1.params.bind_var_query_min_duration_ms, pr.1.params, pr.1.path)

/-- Row core that a completed record should produce in the status report. -/
def inputRow (r : CompletedInput) :
    String × Int × Int × Int × Int × YbQueryDiagnosticsParams × String :=
  projRow (inputProj r)

/-- Folding a list of sample lines through the buffer-append logic of
AccumulateBindVariables. -/
def runSamples (maxLen : Nat) (bind_vars : String)
    (samples : List (TimeMs × List BindParam)) : String :=
  samples.foldl
    (fun acc s => AccumulateBindVariables maxLen acc s.1 s.2) bind_vars

/-- The sample lines the buffer actually accepts: a sample is accepted exactly
when the buffer is not yet full and the line fits strictly within maxLen. -/
def acceptedLines (maxLen : Nat) (bind_vars : String) :
    List (TimeMs × List BindParam) → List String
  | [] => []
  | s :: rest =>
    let line := sampleLine s.1 s.2
    if bind_vars.length ≠ maxLen - 1 ∧ bind_vars.length + line.length < maxLen then
      line :: acceptedLines maxLen (bind_vars ++ line) rest
    else acceptedLines maxLen bind_vars rest

/-- Byte-exact concatenation of a list of strings. -/
def concatLines : List String → String
  | [] => ""
  | l :: ls => l ++ concatLines ls

/-- Query ids (as recorded in the entries' metadata, the key the sweep removes
by) of the entries of a table slice that a sweep at the given time
finalizes. -/
def expiredKeys (current_time : Int) (l : BundlesInProgress) : List Int :=
  (l.filter fun p => HasBundleExpired p.2 current_time).map
    fun p => p.2.metadata.params.query_id

/-- The completed record a sweep files for one expired entry. -/
def sweepRecord (fs : FsOracle) (p : Int × YbQueryDiagnosticsEntry) : CompletedInput :=
  (p.2.metadata, (bundleOutcome fs p.2).status, (bundleOutcome fs p.2).description)

/-- Filesystem oracle on which every operation succeeds, for concrete runs. -/
def constFs : FsOracle := ⟨fun _ => true, fun _ => true, fun _ => true⟩

/-- Concrete parameter record used by concrete runs. -/
def wParams (qid : Int) : YbQueryDiagnosticsParams := ⟨qid, 1, 0, false, false, false, 0⟩

/-- Concrete metadata used by concrete runs. -/
def wMeta (qid : Int) : YbQueryDiagnosticsMetadata := ⟨wParams qid, 0, "p"⟩

/-- Concrete completed record with empty description used by concrete runs. -/
def wRecord (qid : Int) : CompletedInput := (wMeta qid, 0, "")

/-- Concrete active entry with empty buffer used by concrete runs. -/
def wEntry (qid : Int) : YbQueryDiagnosticsEntry := ⟨wMeta qid, ""⟩

/-- Claim C1: a Begin call for a query_id that already has an active session
fails with the duplicate-session error and performs no mutation: the table is
returned unchanged, so it still maps the query_id to the original entry with
its metadata and buffer intact, and no entry is added or removed.  Stated both
for InsertNewBundleInfo and for the full yb_query_diagnostics call. -/
theorem c1_duplicate_begin :
    (∀ (tbl : BundlesInProgress) (md : YbQueryDiagnosticsMetadata)
        (e : YbQueryDiagnosticsEntry),
      tbl.lookup md.params.query_id = some e →
      InsertNewBundleInfo tbl md = (tbl, some DiagError.duplicateSessionError)) ∧
    (∀ (hashAny : Int → Nat) (dataDir : String) (now : Int)
        (query_id diagnostics_interval_sec explain_sample_rate : Int)
        (explain_analyze explain_dist explain_debug : Bool)
        (bind_var_query_min_duration_ms : Int)
        (tbl : BundlesInProgress) (params : YbQueryDiagnosticsParams)
        (md : YbQueryDiagnosticsMetadata) (e : YbQueryDiagnosticsEntry),
      FetchParams query_id diagnostics_interval_sec explain_sample_rate
        explain_analyze explain_dist explain_debug
        bind_var_query_min_duration_ms = .ok params →
      ConstructDiagnosticsPath hashAny dataDir params now = .ok md →
      tbl.lookup md.params.query_id = some e →
      yb_query_diagnostics true hashAny dataDir now query_id
        diagnostics_interval_sec explain_sample_rate explain_analyze
        explain_dist explain_debug bind_var_query_min_duration_ms tbl
        = (tbl, .error DiagError.duplicateSessionError)) := by
  constructor
  · intro tbl md e h
    simp [InsertNewBundleInfo, h]
  · intro hashAny dataDir now query_id diagnostics_interval_sec
      explain_sample_rate explain_analyze explain_dist explain_debug
      bind_var_query_min_duration_ms tbl params md e h1 h2 h3
    simp [yb_query_diagnostics, h1, h2, InsertNewBundleInfo, h3]

/-- Witness for C1 at a concrete table holding query_id 5. -/
theorem c1_duplicate_begin_witness :
    InsertNewBundleInfo [((5 : Int), wEntry 5)] (wMeta 5)
      = ([((5 : Int), wEntry 5)], some DiagError.duplicateSessionError) :=
  c1_duplicate_begin.1 [((5 : Int), wEntry 5)] (wMeta 5) (wEntry 5) (by decide)

/-- Claim C3: the claimed line format holds for the all-non-null example
(params 1 and a with 12.3 ms give exactly the line 1,a,12.300000 newline),
but the general comma-separated rendering fails on null values: FormatParams
appends the bare word NULL with no following comma, so a null parameter fuses
with the next field.  A single null parameter at 12.3 ms yields the line
NULL12.300000 newline instead of the comma-separated NULL,12.300000 newline. -/
theorem c3_null_param_fuses_fields :
    AccumulateBindVariables 2048 "" ⟨12, 300000⟩ [BindParam.nullParam]
      = "NULL12.300000\n" ∧
    ("NULL12.300000\n" : String) ≠ "NULL,12.300000\n" ∧
    AccumulateBindVariables 2048 "" ⟨12, 300000⟩
      [BindParam.typed "1", BindParam.typed "a"] = "1,a,12.300000\n" ∧
    AccumulateBindVariables 2048 "" ⟨12, 300000⟩
      [BindParam.nullParam, BindParam.typed "1"] = "NULL1,12.300000\n" := by
  refine ⟨by decide, by decide, by decide, by decide⟩

/-- Claim C9 counterexample: in the concrete execution where the entry is
found, parameters are present, the threshold is met and the buffer is not
full, the formatting event is trace position 4 and executes while the Active
Session Table lock is held in shared mode, so formatting does not happen
outside of any lock as claimed. -/
theorem c9_format_under_table_lock :
    (executorEndTrace true true true false true).get? 4
      = some HookAction.formatAction ∧
    locksHeldBefore (executorEndTrace true true true false true) 4 ≠ (false, false) ∧
    (locksHeldBefore (executorEndTrace true true true false true) 4).1 = true := by
  refine ⟨by decide, by decide, by decide⟩

/-- Claim C9 as amended: in every execution of the hook, parameter formatting
happens while the Active Session Table lock is held in shared mode and while
the session's buffer spinlock is not held. -/
theorem c9_format_lock_state :
    ∀ (found has_params meets_threshold is_full fits : Bool)
      (i : Fin (executorEndTrace found has_params meets_threshold is_full fits).length),
      (executorEndTrace found has_params meets_threshold is_full fits).get i
        = HookAction.formatAction →
      locksHeldBefore (executorEndTrace found has_params meets_threshold is_full fits)
          i.val = (true, false) := by
  decide

/-- Witness for the amended C9 at the concrete all-true execution. -/
theorem c9_format_lock_state_witness :
    (executorEndTrace true true true false true).get ⟨4, by decide⟩
        = HookAction.formatAction ∧
      locksHeldBefore (executorEndTrace true true true false true) 4 = (true, false) :=
  ⟨by decide, c9_format_lock_state true true true false true ⟨4, by decide⟩ (by decide)⟩

/-- Claim C10: the storage path is a deterministic function of the data
directory, the query_id and start_time: the random-salt component is the hash
of start_time alone, so two path constructions with equal query_id and equal
start_time produce the identical path for any hash function. -/
theorem c10_path_deterministic :
    ∀ (hashAny : Int → Nat) (dataDir : String)
      (p1 p2 : YbQueryDiagnosticsParams) (t1 t2 : Int),
      p1.query_id = p2.query_id → t1 = t2 →
      (ConstructDiagnosticsPath hashAny dataDir p1 t1).map
          (fun m => m.path)
        = (ConstructDiagnosticsPath hashAny dataDir p2 t2).map
          (fun m => m.path) := by
  intro hashAny dataDir p1 p2 t1 t2 hq ht
  subst ht
  simp only [ConstructDiagnosticsPath, hq]
  split
  · rfl
  · rfl

/-- Witness for C10 at two parameter records sharing query_id 5 and time 3. -/
theorem c10_path_deterministic_witness :
    (ConstructDiagnosticsPath (fun _ => 9) "d" (wParams 5) 3).map (fun m => m.path)
      = (ConstructDiagnosticsPath (fun _ => 9) "d" ⟨5, 2, 7, true, true, true, 1⟩ 3).map
        (fun m => m.path) :=
  c10_path_deterministic (fun _ => 9) "d" (wParams 5) ⟨5, 2, 7, true, true, true, 1⟩ 3 3
    (by decide) rfl

/-- Records already archived stay archived as the sweep scans further
entries. -/
theorem sweep_archived_mono (fs : FsOracle) (t : Int) :
    ∀ (l : BundlesInProgress) (st : SweepState) (x : CompletedInput),
      x ∈ st.archived → x ∈ (l.foldl (sweepStep fs t) st).archived := by
  intro l
  induction l with
  | nil => intro st x hx; exact hx
  | cons q rest ih =>
    intro st x hx
    rw [List.foldl_cons]
    apply ih
    unfold sweepStep
    split
    · simp only [List.mem_append]; exact Or.inl hx
    · exact hx

/-- Every expired entry of the scanned slice contributes its sweep record to
the archive. -/
theorem sweep_archived_mem (fs : FsOracle) (t : Int) :
    ∀ (l : BundlesInProgress) (st : SweepState) (p : Int × YbQueryDiagnosticsEntry),
      p ∈ l → HasBundleExpired p.2 t = true →
      sweepRecord fs p ∈ (l.foldl (sweepStep fs t) st).archived := by
  intro l
  induction l with
  | nil => intro st p hp; exact absurd hp (List.not_mem_nil p)
  | cons q rest ih =>
    intro st p hp hexp
    rw [List.foldl_cons]
    rcases List.mem_cons.mp hp with hpq | hp2
    · subst hpq
      apply sweep_archived_mono
      simp only [sweepStep, hexp, if_pos, sweepRecord, List.mem_append,
        List.mem_singleton]
      exact Or.inr trivial
    · exact ih _ p hp2 hexp

/-- Claim C5: a session with an empty accumulation buffer at expiry is
persisted as Success with description exactly "No data captured" and no file
write: DumpToFile on an empty payload returns that outcome unconditionally,
and the sweep files exactly that completed record for such an entry whenever
its directory creation succeeds. -/
theorem c5_empty_buffer_success :
    (∀ (fs : FsOracle) (path file_name : String),
      DumpToFile fs path file_name ""
        = ⟨DIAGNOSTICS_SUCCESS, "No data captured", []⟩) ∧
    (∀ (fs : FsOracle) (current_time : Int) (tbl : BundlesInProgress)
        (b : YbQueryDiagnosticsBundles) (p : Int × YbQueryDiagnosticsEntry),
      p ∈ tbl → p.2.bind_vars = "" → HasBundleExpired p.2 current_time = true →
      fs.mkdirOk p.2.metadata.path = true →
      (p.2.metadata, DIAGNOSTICS_SUCCESS, "No data captured")
        ∈ (RemoveExpiredEntries fs current_time tbl b).archived) := by
  constructor
  · intro fs path file_name; rfl
  · intro fs current_time tbl b p hp hbv hexp hmk
    have houtcome : bundleOutcome fs p.2
        = ⟨DIAGNOSTICS_SUCCESS, "No data captured", []⟩ := by
      unfold bundleOutcome
      rw [hmk]
      simp only [Bool.true_eq_false, if_false, hbv]
      rfl
    have hmem := sweep_archived_mem fs current_time tbl ⟨tbl, b, [], []⟩ p hp hexp
    unfold sweepRecord at hmem
    rw [houtcome] at hmem
    exact hmem

/-- Witness for C5: a concrete expired entry with an empty buffer archives as
Success with description "No data captured". -/
theorem c5_empty_buffer_success_witness :
    DumpToFile constFs "d" "bind_variables.csv" ""
        = ⟨DIAGNOSTICS_SUCCESS, "No data captured", []⟩ ∧
      ((wEntry 7).metadata, DIAGNOSTICS_SUCCESS, "No data captured")
        ∈ (RemoveExpiredEntries constFs 2000000 [((7 : Int), wEntry 7)]
            (emptyBundles 1)).archived :=
  ⟨c5_empty_buffer_success.1 constFs "d" "bind_variables.csv",
   c5_empty_buffer_success.2 constFs 2000000 [((7 : Int), wEntry 7)]
     (emptyBundles 1) ((7 : Int), wEntry 7) (by decide) rfl (by decide) rfl⟩

/-- FetchParams rejects with some validation error whenever any of the four
bound conditions is violated. -/
theorem fetchParams_invalid
    (query_id diagnostics_interval_sec explain_sample_rate : Int)
    (explain_analyze explain_dist explain_debug : Bool)
    (bind_var_query_min_duration_ms : Int)
    (h : query_id = 0 ∨ diagnostics_interval_sec ≤ 0 ∨ explain_sample_rate < 0 ∨
      100 < explain_sample_rate ∨ bind_var_query_min_duration_ms < 0) :
    ∃ msg, FetchParams query_id diagnostics_interval_sec explain_sample_rate
        explain_analyze explain_dist explain_debug bind_var_query_min_duration_ms
      = .error (.validationError msg) := by
  unfold FetchParams
  split
  · exact ⟨_, rfl⟩
  · split
    · exact ⟨_, rfl⟩
    · split
      · exact ⟨_, rfl⟩
      · split
        · exact ⟨_, rfl⟩
        · rename_i h1 h2 h3 h4
          rcases h with h | h | h | h | h
          · exact absurd h h1
          · exact absurd h h2
          · exact absurd (Or.inl h) h3
          · exact absurd (Or.inr h) h3
          · exact absurd h h4

/-- Claim C7: the seven Begin parameters are validated before any mutation:
each of the four invalid conditions makes the call fail with a validation
error and leaves the table unchanged; the explain_sample_rate boundary values
0 and 100 pass validation while -1 and 101 are rejected. -/
theorem c7_validation :
    (∀ (hashAny : Int → Nat) (dataDir : String) (now : Int)
        (query_id diagnostics_interval_sec explain_sample_rate : Int)
        (explain_analyze explain_dist explain_debug : Bool)
        (bind_var_query_min_duration_ms : Int) (tbl : BundlesInProgress),
      (query_id = 0 ∨ diagnostics_interval_sec ≤ 0 ∨ explain_sample_rate < 0 ∨
        100 < explain_sample_rate ∨ bind_var_query_min_duration_ms < 0) →
      ∃ msg, yb_query_diagnostics true hashAny dataDir now query_id
          diagnostics_interval_sec explain_sample_rate explain_analyze
          explain_dist explain_debug bind_var_query_min_duration_ms tbl
        = (tbl, .error (.validationError msg))) ∧
    (∀ (query_id diagnostics_interval_sec : Int)
        (explain_analyze explain_dist explain_debug : Bool)
        (bind_var_query_min_duration_ms : Int),
      query_id ≠ 0 → 0 < diagnostics_interval_sec →
      0 ≤ bind_var_query_min_duration_ms →
      FetchParams query_id diagnostics_interval_sec 0 explain_analyze
          explain_dist explain_debug bind_var_query_min_duration_ms
        = .ok ⟨query_id, diagnostics_interval_sec, 0, explain_analyze,
               explain_dist, explain_debug, bind_var_query_min_duration_ms⟩ ∧
      FetchParams query_id diagnostics_interval_sec 100 explain_analyze
          explain_dist explain_debug bind_var_query_min_duration_ms
        = .ok ⟨query_id, diagnostics_interval_sec, 100, explain_analyze,
               explain_dist, explain_debug, bind_var_query_min_duration_ms⟩) ∧
    FetchParams 1 1 (-1) false false false 0
      = .error (.validationError "explain_sample_rate should be between 0 and 100") ∧
    FetchParams 1 1 101 false false false 0
      = .error (.validationError "explain_sample_rate should be between 0 and 100") := by
  refine ⟨?_, ?_, by rfl, by rfl⟩
  · intro hashAny dataDir now query_id diagnostics_interval_sec
      explain_sample_rate explain_analyze explain_dist explain_debug
      bind_var_query_min_duration_ms tbl h
    obtain ⟨msg, hmsg⟩ := fetchParams_invalid query_id diagnostics_interval_sec
      explain_sample_rate explain_analyze explain_dist explain_debug
      bind_var_query_min_duration_ms h
    exact ⟨msg, by simp [yb_query_diagnostics, hmsg]⟩
  · intro query_id diagnostics_interval_sec explain_analyze explain_dist
      explain_debug bind_var_query_min_duration_ms hq hi hm
    constructor
    · unfold FetchParams
      rw [if_neg hq, if_neg (by omega), if_neg (by omega), if_neg (by omega)]
    · unfold FetchParams
      rw [if_neg hq, if_neg (by omega), if_neg (by omega), if_neg (by omega)]

/-- Witness for C7: concrete invalid and boundary calls. -/
theorem c7_validation_witness :
    (∃ msg, yb_query_diagnostics true (fun _ => 9) "d" 3 0 1 0 false false false 0 []
      = ([], .error (.validationError msg))) ∧
    FetchParams 5 1 0 false false false 0 = .ok ⟨5, 1, 0, false, false, false, 0⟩ ∧
    FetchParams 5 1 100 false false false 0
      = .ok ⟨5, 1, 100, false, false, false, 0⟩ :=
  ⟨c7_validation.1 (fun _ => 9) "d" 3 0 1 0 false false false 0 [] (Or.inl rfl),
   (c7_validation.2.1 5 1 false false false 0 (by decide) (by decide) (by decide)).1,
   (c7_validation.2.1 5 1 false false false 0 (by decide) (by decide) (by decide)).2⟩

/-- A string of positive length is not the empty string. -/
theorem string_ne_empty_of_length_pos {s : String} (h : 0 < s.length) : s ≠ "" := by
  intro he
  rw [he] at h
  exact absurd h (by decide)

/-- A sample line has positive length: it always ends with the newline
appended after the elapsed time. -/
theorem sampleLine_length_pos (t : TimeMs) (ps : List BindParam) :
    0 < (sampleLine t ps).length := by
  simp only [sampleLine, String.length_append]
  have h1 : ("\n" : String).length = 1 := rfl
  omega

/-- The buffer after a run of samples is the starting content followed by the
concatenation of exactly the accepted lines, in arrival order. -/
theorem runSamples_eq_accepted (maxLen : Nat) :
    ∀ (samples : List (TimeMs × List BindParam)) (bind_vars : String),
      runSamples maxLen bind_vars samples
        = bind_vars ++ concatLines (acceptedLines maxLen bind_vars samples) := by
  intro samples
  induction samples with
  | nil =>
    intro bind_vars
    simp [runSamples, acceptedLines, concatLines]
  | cons s rest ih =>
    intro bind_vars
    have hstep : runSamples maxLen bind_vars (s :: rest)
        = runSamples maxLen (AccumulateBindVariables maxLen bind_vars s.1 s.2) rest := by
      simp [runSamples]
    by_cases hC : bind_vars.length ≠ maxLen - 1 ∧
        bind_vars.length + (sampleLine s.1 s.2).length < maxLen
    · have hacc : AccumulateBindVariables maxLen bind_vars s.1 s.2
          = bind_vars ++ sampleLine s.1 s.2 := by
        unfold AccumulateBindVariables
        rw [if_neg hC.1]
        exact if_pos hC.2
      rw [hstep, hacc, ih]
      show (bind_vars ++ sampleLine s.1 s.2) ++ _ = _
      rw [acceptedLines]
      simp only [if_pos hC]
      rw [concatLines, String.append_assoc]
    · have hacc : AccumulateBindVariables maxLen bind_vars s.1 s.2 = bind_vars := by
        unfold AccumulateBindVariables
        by_cases hfull : bind_vars.length = maxLen - 1
        · exact if_pos hfull
        · rw [if_neg hfull]
          have hnf : ¬ bind_vars.length + (sampleLine s.1 s.2).length < maxLen := by
            intro hlt
            exact hC ⟨hfull, hlt⟩
          exact if_neg hnf
      rw [hstep, hacc, ih]
      rw [acceptedLines]
      simp only [if_neg hC]

/-- Claim C6: round-trip.  The final buffer is the byte-exact concatenation of
the accepted lines in arrival order; when no sample was dropped, DumpToFile
persists exactly the concatenation of all the formatted lines; and once the
buffer has reached capacity (maxLen - 1 bytes) every further sample is
dropped, leaving the earlier accepted lines byte-exact. -/
theorem c6_round_trip :
    (∀ (maxLen : Nat) (bind_vars : String)
        (samples : List (TimeMs × List BindParam)),
      runSamples maxLen bind_vars samples
        = bind_vars ++ concatLines (acceptedLines maxLen bind_vars samples)) ∧
    (∀ (maxLen : Nat) (samples : List (TimeMs × List BindParam)) (fs : FsOracle)
        (path file_name : String),
      acceptedLines maxLen "" samples = samples.map (fun s => sampleLine s.1 s.2) →
      samples ≠ [] →
      fs.openOk (path ++ "/" ++ file_name) = true →
      fs.writeOk (path ++ "/" ++ file_name) = true →
      (DumpToFile fs path file_name (runSamples maxLen "" samples)).writes
        = [(path ++ "/" ++ file_name,
            concatLines (samples.map fun s => sampleLine s.1 s.2))]) ∧
    (∀ (maxLen : Nat) (bind_vars : String) (t : TimeMs) (ps : List BindParam),
      bind_vars.length = maxLen - 1 →
      AccumulateBindVariables maxLen bind_vars t ps = bind_vars) := by
  refine ⟨fun maxLen bv samples => runSamples_eq_accepted maxLen samples bv, ?_, ?_⟩
  · intro maxLen samples fs path file_name hall hne hopen hwrite
    have hrun : runSamples maxLen "" samples
        = concatLines (samples.map fun s => sampleLine s.1 s.2) := by
      rw [runSamples_eq_accepted maxLen samples "", hall]
      exact String.empty_append _
    have hcne : concatLines (samples.map fun s => sampleLine s.1 s.2) ≠ "" := by
      rcases samples with _ | ⟨s, rest⟩
      · exact absurd rfl hne
      · apply string_ne_empty_of_length_pos
        simp only [List.map_cons, concatLines, String.length_append]
        have := sampleLine_length_pos s.1 s.2
        omega
    rw [hrun]
    simp only [DumpToFile, if_neg hcne, hopen, hwrite, Bool.true_eq_false, if_false]
  · intro maxLen bind_vars t ps hfull
    unfold AccumulateBindVariables
    exact if_pos hfull

/-- Witness for C6 at a concrete one-sample run and a concrete full buffer. -/
theorem c6_round_trip_witness :
    runSamples 100 "" [(⟨12, 300000⟩, [BindParam.typed "1", BindParam.typed "a"])]
        = "" ++ concatLines (acceptedLines 100 ""
            [(⟨12, 300000⟩, [BindParam.typed "1", BindParam.typed "a"])]) ∧
      (DumpToFile constFs "d" "bind_variables.csv"
          (runSamples 100 ""
            [(⟨12, 300000⟩, [BindParam.typed "1", BindParam.typed "a"])])).writes
        = [("d" ++ "/" ++ "bind_variables.csv",
            concatLines
              ([(⟨12, 300000⟩, [BindParam.typed "1", BindParam.typed "a"])].map
                fun s => sampleLine s.1 s.2))] ∧
      AccumulateBindVariables 15 "NULL12.300000\n" ⟨1, 0⟩ [] = "NULL12.300000\n" :=
  ⟨c6_round_trip.1 100 "" [(⟨12, 300000⟩, [BindParam.typed "1", BindParam.typed "a"])],
   c6_round_trip.2.1 100 [(⟨12, 300000⟩, [BindParam.typed "1", BindParam.typed "a"])]
     constFs "d" "bind_variables.csv" (by decide) (by decide) rfl rfl,
   c6_round_trip.2.2 15 "NULL12.300000\n" ⟨1, 0⟩ [] (by decide)⟩

/-- The table after sweeping a slice of entries: every entry whose key matches
an expired entry of the slice has been removed. -/
theorem sweep_fold_table (fs : FsOracle) (t : Int) :
    ∀ (l : BundlesInProgress) (st : SweepState),
      (l.foldl (sweepStep fs t) st).table
        = st.table.filter fun p => decide (p.1 ∉ expiredKeys t l) := by
  intro l
  induction l with
  | nil =>
    intro st
    simp [expiredKeys]
  | cons q rest ih =>
    intro st
    rw [List.foldl_cons]
    by_cases hq : HasBundleExpired q.2 t = true
    · rw [ih]
      have hstep : (sweepStep fs t st q).table
          = st.table.filter fun r => decide (r.1 ≠ q.2.metadata.params.query_id) := by
        simp [sweepStep, hq]
      have hek : expiredKeys t (q :: rest)
          = q.2.metadata.params.query_id :: expiredKeys t rest := by
        simp [expiredKeys, hq]
      rw [hstep, List.filter_filter]
      apply List.filter_congr
      intro x _
      by_cases h1 : x.1 = q.2.metadata.params.query_id <;>
        by_cases h2 : x.1 ∈ expiredKeys t rest <;>
          simp [hek, h1, h2, List.mem_cons]
    · have hstep : sweepStep fs t st q = st := by simp [sweepStep, hq]
      have hek : expiredKeys t (q :: rest) = expiredKeys t rest := by
        simp [expiredKeys, hq]
      rw [hstep, ih, hek]

/-- The archive after sweeping a slice of entries: the records of exactly the
expired entries are appended, in scan order. -/
theorem sweep_fold_archived (fs : FsOracle) (t : Int) :
    ∀ (l : BundlesInProgress) (st : SweepState),
      (l.foldl (sweepStep fs t) st).archived
        = st.archived
          ++ (l.filter fun p => HasBundleExpired p.2 t).map (sweepRecord fs) := by
  intro l
  induction l with
  | nil => intro st; simp
  | cons q rest ih =>
    intro st
    rw [List.foldl_cons]
    by_cases hq : HasBundleExpired q.2 t = true
    · have hstep : (sweepStep fs t st q).archived
          = st.archived ++ [sweepRecord fs q] := by
        simp [sweepStep, hq, sweepRecord]
      rw [ih, hstep]
      simp [hq, List.append_assoc]
    · have hstep : sweepStep fs t st q = st := by simp [sweepStep, hq]
      rw [hstep, ih]
      simp [hq]

/-- Claim C8: an active session is finalized by a sweep exactly when
current_time has reached start_time plus diagnostics_interval_sec converted
to microseconds: the surviving table is the original filtered to the
non-expired entries (each untouched), and the archived records are exactly
the expired entries' metadata, while non-expired entries contribute
nothing. -/
theorem c8_expiry_sweep :
    ∀ (fs : FsOracle) (current_time : Int) (tbl : BundlesInProgress)
      (b : YbQueryDiagnosticsBundles),
      (tbl.map Prod.fst).Nodup →
      (∀ p ∈ tbl, p.1 = p.2.metadata.params.query_id) →
      (∀ (e : YbQueryDiagnosticsEntry) (ct : Int),
        HasBundleExpired e ct = decide (e.metadata.start_time +
          e.metadata.params.diagnostics_interval_sec * USECS_PER_SEC ≤ ct)) ∧
      (RemoveExpiredEntries fs current_time tbl b).table
        = tbl.filter (fun p => !HasBundleExpired p.2 current_time) ∧
      (RemoveExpiredEntries fs current_time tbl b).archived.map (fun r => r.1)
        = (tbl.filter fun p => HasBundleExpired p.2 current_time).map
            (fun p => p.2.metadata) := by
  intro fs t tbl b hnd hkey
  refine ⟨fun e ct => rfl, ?_, ?_⟩
  · unfold RemoveExpiredEntries
    rw [sweep_fold_table]
    apply List.filter_congr
    intro p hp
    by_cases hexp : HasBundleExpired p.2 t = true
    · have hmem : p.1 ∈ expiredKeys t tbl := by
        unfold expiredKeys
        exact List.mem_map.mpr ⟨p, List.mem_filter.mpr ⟨hp, hexp⟩, (hkey p hp).symm⟩
      simp [hmem, hexp]
    · have hnmem : p.1 ∉ expiredKeys t tbl := by
        intro hm
        unfold expiredKeys at hm
        obtain ⟨q, hqf, hqk⟩ := List.mem_map.mp hm
        obtain ⟨hqmem, hqexp⟩ := List.mem_filter.mp hqf
        have hqk2 : q.1 = p.1 := by rw [hkey q hqmem, hqk]
        have hqp : q = p := List.inj_on_of_nodup_map hnd hqmem hp hqk2
        rw [hqp] at hqexp
        exact hexp hqexp
      simp [hnmem, hexp]
  · unfold RemoveExpiredEntries
    rw [sweep_fold_archived]
    simp [List.map_map, sweepRecord, Function.comp]

/-- Concrete live entry whose window has not elapsed at time 2000000. -/
def wEntry2 : YbQueryDiagnosticsEntry := ⟨⟨wParams 2, 1900000, "p"⟩, ""⟩

/-- Witness for C8 at a concrete table with one expired and one live entry. -/
theorem c8_expiry_sweep_witness :
    (∀ (e : YbQueryDiagnosticsEntry) (ct : Int),
      HasBundleExpired e ct = decide (e.metadata.start_time +
        e.metadata.params.diagnostics_interval_sec * USECS_PER_SEC ≤ ct)) ∧
    (RemoveExpiredEntries constFs 2000000 [((1 : Int), wEntry 1), ((2 : Int), wEntry2)]
        (emptyBundles 1)).table
      = [((1 : Int), wEntry 1), ((2 : Int), wEntry2)].filter
          (fun p => !HasBundleExpired p.2 2000000) ∧
    (RemoveExpiredEntries constFs 2000000 [((1 : Int), wEntry 1), ((2 : Int), wEntry2)]
        (emptyBundles 1)).archived.map (fun r => r.1)
      = ([((1 : Int), wEntry 1), ((2 : Int), wEntry2)].filter
          fun p => HasBundleExpired p.2 2000000).map (fun p => p.2.metadata) :=
  c8_expiry_sweep constFs 2000000 [((1 : Int), wEntry 1), ((2 : Int), wEntry2)]
    (emptyBundles 1) (by decide) (by decide)

/-- Inserting a run of records that fits between the cursor and the end of the
circular buffer writes them contiguously starting at the cursor (viewed
through the description-free slot projection), advances the cursor by the run
length wrapping to 0 exactly at capacity, and preserves capacity and slot
count. -/
theorem insertAll_segment :
    ∀ (rs : List CompletedInput) (b : YbQueryDiagnosticsBundles),
      b.bundles.length = b.max_entries →
      b.index + rs.length ≤ b.max_entries →
      ((insertAllCompleted b rs).bundles.map bundleProj
          = (b.bundles.map bundleProj).take b.index ++ rs.map inputProj
            ++ (b.bundles.map bundleProj).drop (b.index + rs.length)) ∧
        (rs ≠ [] → b.index + rs.length = b.max_entries →
          (insertAllCompleted b rs).index = 0) ∧
        (insertAllCompleted b rs).max_entries = b.max_entries ∧
        (insertAllCompleted b rs).bundles.length = b.bundles.length := by
  intro rs
  induction rs with
  | nil =>
    intro b hlen hle
    refine ⟨?_, fun hne _ => absurd rfl hne, rfl, rfl⟩
    simp only [insertAllCompleted, List.foldl_nil, List.map_nil,
      List.append_nil, List.length_nil, Nat.add_zero]
    exact (List.take_append_drop b.index (b.bundles.map bundleProj)).symm
  | cons r rest ih =>
    intro b hlen hle
    have hfold : insertAllCompleted b (r :: rest)
        = insertAllCompleted (InsertCompletedBundleInfo b r.1 r.2.1 r.2.2) rest := by
      simp [insertAllCompleted]
    set b1 := InsertCompletedBundleInfo b r.1 r.2.1 r.2.2 with hb1
    have hidx : b.index < b.bundles.length := by
      simp only [List.length_cons] at hle
      omega
    have hb1bundles : b1.bundles.map bundleProj
        = (b.bundles.map bundleProj).take b.index ++ inputProj r ::
          (b.bundles.map bundleProj).drop (b.index + 1) := by
      have hset : b1.bundles = b.bundles.set b.index
          ⟨r.1, r.2.1, memcpyDescription
            (b.bundles.getD b.index emptyBundleInfo).description r.2.2⟩ := rfl
      rw [hset, List.map_set]
      exact List.set_eq_take_cons_drop _ (by rw [List.length_map]; exact hidx)
    have hb1len : b1.bundles.length = b.bundles.length := List.length_set _ _ _
    have hb1max : b1.max_entries = b.max_entries := rfl
    by_cases h1 : b.index + 1 = b.max_entries
    · have hrest : rest = [] := by
        apply List.eq_nil_of_length_eq_zero
        simp only [List.length_cons] at hle
        omega
      subst hrest
      rw [hfold]
      have hone : insertAllCompleted b1 [] = b1 := rfl
      rw [hone]
      refine ⟨?_, ?_, hb1max, hb1len⟩
      · rw [hb1bundles]
        simp [List.singleton_append]
      · intro _ _
        simp only [hb1, InsertCompletedBundleInfo]
        rw [if_pos h1]
    · have hb1idx : b1.index = b.index + 1 := by
        simp only [hb1, InsertCompletedBundleInfo]
        rw [if_neg h1]
      have hle1 : b1.index + rest.length ≤ b1.max_entries := by
        rw [hb1idx, hb1max]
        simp only [List.length_cons] at hle
        omega
      have hlen1 : b1.bundles.length = b1.max_entries := by
        rw [hb1len, hb1max]; exact hlen
      obtain ⟨hB, hI, hM, hL⟩ := ih b1 hlen1 hle1
      rw [hfold]
      have htk : (b1.bundles.map bundleProj).take b1.index
          = (b.bundles.map bundleProj).take b.index ++ [inputProj r] := by
        rw [hb1idx, hb1bundles, List.take_append_eq_append_take]
        have hlt : ((b.bundles.map bundleProj).take b.index).length = b.index := by
          rw [List.length_take, List.length_map]
          omega
        rw [List.take_of_length_le (by omega), hlt]
        have : b.index + 1 - b.index = 1 := by omega
        rw [this]
        rfl
      have hdr : (b1.bundles.map bundleProj).drop (b1.index + rest.length)
          = (b.bundles.map bundleProj).drop (b.index + (rest.length + 1)) := by
        rw [hb1idx, hb1bundles, List.drop_append_eq_append_drop]
        have hlt : ((b.bundles.map bundleProj).take b.index).length = b.index := by
          rw [List.length_take, List.length_map]
          omega
        rw [List.drop_eq_nil_of_le (by omega), hlt]
        have h2 : b.index + 1 + rest.length - b.index = rest.length + 1 := by omega
        rw [h2, List.nil_append, List.drop_succ_cons, List.drop_drop]
        congr 1
        omega
      refine ⟨?_, ?_, by rw [hM, hb1max], by rw [hL, hb1len]⟩
      · rw [hB, htk, hdr]
        simp [List.append_assoc]
      · intro _ hsum
        simp only [List.length_cons] at hsum
        rcases rest with _ | ⟨r2, rest2⟩
        · simp only [List.length_nil] at hsum
          exact absurd (by omega : b.index + 1 = b.max_entries) h1
        · apply hI (by simp)
          rw [hb1idx, hb1max]
          simp only [List.length_cons] at hsum ⊢
          omega

/-- Claim C2 counterexample: with capacity 3 and four insertions (query_ids
1, 2, 3, 4), the completed-bundles report lists query_ids 4, 2, 3 — exactly
the last three records with the oldest gone, but in ring-slot order, which is
neither oldest-first nor newest-first recency order. -/
theorem c2_recency_counterexample :
    (ProcessCompletedBundles
        (insertAllCompleted (emptyBundles 3)
          [wRecord 1, wRecord 2, wRecord 3, wRecord 4])).map
        (fun row => row.query_id)
      = [4, 2, 3] ∧
    ([4, 2, 3] : List Int) ≠ [2, 3, 4] ∧
    ([4, 2, 3] : List Int) ≠ [4, 3, 2] := by
  refine ⟨by decide, by decide, by decide⟩

/-- Claim C2 as amended: inserting N + 1 records into a Completed History Ring
of capacity N > 0 leaves exactly the last N inserted records retrievable via
the completed part of Status() and the oldest is silently gone, but they are
listed in ring-slot order — the newest record first (it overwrote slot 0),
followed by records 2 through N in insertion order — not in recency order.
Stated through the description-free row core, since description bytes are
covered by the separate description-residue bug. -/
theorem c2_ring_slot_order :
    ∀ (n : Nat) (first : List CompletedInput) (lastr : CompletedInput),
      0 < n → first.length = n →
      (∀ r ∈ first, r.1.params.query_id ≠ 0) → lastr.1.params.query_id ≠ 0 →
      (ProcessCompletedBundles
          (insertAllCompleted (emptyBundles n) (first ++ [lastr]))).map rowCore
        = inputRow lastr :: first.tail.map inputRow := by
  intro n first lastr hn hlen hq hql
  have h0len : (emptyBundles n).bundles.length = (emptyBundles n).max_entries := by
    simp [emptyBundles]
  have h0le : (emptyBundles n).index + first.length ≤ (emptyBundles n).max_entries := by
    simp [emptyBundles, hlen]
  obtain ⟨hB1, hI1, hM1, hL1⟩ := insertAll_segment first (emptyBundles n) h0len h0le
  set b2 := insertAllCompleted (emptyBundles n) first with hb2
  have hfirstne : first ≠ [] := by
    intro h
    rw [h] at hlen
    simp only [List.length_nil] at hlen
    omega
  have hI2 : b2.index = 0 := hI1 hfirstne (by simp [emptyBundles, hlen])
  have hM2 : b2.max_entries = n := by rw [hM1]; rfl
  have hL2 : b2.bundles.length = n := by rw [hL1]; simp [emptyBundles]
  have hB2 : b2.bundles.map bundleProj = first.map inputProj := by
    rw [hB1]
    simp only [emptyBundles, List.take_zero, List.nil_append, Nat.zero_add]
    have hdn : ((List.replicate n emptyBundleInfo).map bundleProj).length ≤ first.length := by
      simp [hlen]
    rw [List.drop_eq_nil_of_le hdn, List.append_nil]
  obtain ⟨hB3, _, _, _⟩ := insertAll_segment [lastr] b2
    (by rw [hL2, hM2]) (by rw [hI2, hM2]; simp; omega)
  have hsplit : insertAllCompleted (emptyBundles n) (first ++ [lastr])
      = insertAllCompleted b2 [lastr] := by
    simp only [insertAllCompleted, List.foldl_append, List.foldl_cons, List.foldl_nil]
    rfl
  have htail : (first.map inputProj).tail = first.tail.map inputProj := by
    rw [← List.drop_one, ← List.map_drop, List.drop_one]
  have hbf : (insertAllCompleted (emptyBundles n) (first ++ [lastr])).bundles.map bundleProj
      = inputProj lastr :: first.tail.map inputProj := by
    rw [hsplit, hB3, hI2, hB2]
    simp only [List.take_zero, List.nil_append, Nat.zero_add, List.length_cons,
      List.length_nil, List.drop_one, List.map_cons, List.map_nil]
    rw [htail]
    rfl
  have hrep : (ProcessCompletedBundles
        (insertAllCompleted (emptyBundles n) (first ++ [lastr]))).map rowCore
      = (((insertAllCompleted (emptyBundles n) (first ++ [lastr])).bundles.map
            bundleProj).filter
          (fun pr => decide (pr.1.params.query_id ≠ 0))).map projRow := by
    unfold ProcessCompletedBundles
    rw [List.map_map, List.filter_map, List.map_map]
    rfl
  rw [hrep, hbf]
  have hfilter : (inputProj lastr :: first.tail.map inputProj).filter
        (fun pr => decide (pr.1.params.query_id ≠ 0))
      = inputProj lastr :: first.tail.map inputProj := by
    apply List.filter_eq_self.mpr
    intro a ha
    rcases List.mem_cons.mp ha with h | h
    · subst h
      simpa using hql
    · obtain ⟨r, hr, hra⟩ := List.mem_map.mp h
      have hrq := hq r (List.mem_of_mem_tail hr)
      rw [← hra]
      simpa using hrq
  rw [hfilter, List.map_cons, List.map_map]
  rfl

/-- Witness for the amended C2 at capacity 3 with four concrete insertions. -/
theorem c2_ring_slot_order_witness :
    (ProcessCompletedBundles
        (insertAllCompleted (emptyBundles 3)
          ([wRecord 1, wRecord 2, wRecord 3] ++ [wRecord 4]))).map rowCore
      = inputRow (wRecord 4) :: [wRecord 1, wRecord 2, wRecord 3].tail.map inputRow :=
  c2_ring_slot_order 3 [wRecord 1, wRecord 2, wRecord 3] (wRecord 4)
    (by decide) (by decide) (by decide) (by decide)

/-- Claim C4 failing run: InsertCompletedBundleInfo copies only
strlen(description) bytes and omits the NUL terminator, so when a ring slot
that previously held the 44-byte description "Failed to create query
diagnostics directory" is overwritten by a record whose description is
"No data captured", the status report reads back the stored bytes as
"No data captured query diagnostics directory" instead of the recorded
description. -/
theorem c4_description_residue :
    (ProcessCompletedBundles
        (InsertCompletedBundleInfo
          (InsertCompletedBundleInfo (emptyBundles 1) (wMeta 7) DIAGNOSTICS_ERROR
            "Failed to create query diagnostics directory")
          (wMeta 8) DIAGNOSTICS_SUCCESS "No data captured")).map
        (fun row => row.description)
      = ["No data captured query diagnostics directory"] ∧
    (["No data captured query diagnostics directory"] : List String)
      ≠ ["No data captured"] := by
  refine ⟨by decide, by decide⟩
